import Mathlib

/-!
Verification of the jobspy query language (`src/jobspy/querying/`).

The development shallowly embeds the two source modules:
  * `jobspy/querying/query.py`  — the AST (`Condition`, `Query`), the operator
    policy `VALID_OPERATOR_MAP`, the comparison table
    `OPERATOR_FUNCTION_MAP`, and the evaluator with its error types;
  * `jobspy/querying/parser.py` — `QueryParser._tokenize`, `_parse_query`,
    `_parse_condition` and `_parse_value`.

Modelling notes.
  * Python runtime values that can flow through the evaluator are the closed
    set produced by `_parse_value` (str, bool, int, float, datetime,
    timedelta); they are embedded as the inductive `Value`.
  * Records (pydantic `BaseModel` items) are embedded as
    `Record := String → Option Value`; `getattr(item, field, None)` returning
    `None` — whether because the attribute is absent or because it holds the
    null value — corresponds to the function returning `none`.
  * Python `float` values are modelled exactly, as rationals plus the three
    specials (`inf`, `-inf`, `nan`).  The IEEE rounding of decimal literals is
    not modelled: no claim depends on the numeric value of a float literal,
    only on which kind a literal coerces to and on parse success/failure.
  * Characters are treated at the ASCII level (as every string occurring in
    the repository's queries and tests is ASCII): `\w`, `\s`, `str.lower`,
    `str.strip` are embedded for the ASCII range.
  * `isinstance(self.value, item_type)` is embedded by `pyIsInstance`, which
    accounts for the one subclass relation among the six kinds: Python's
    `bool` is a subclass of `int`.
-/

/-! ## Kinds, operators, values -/

/-- `ComparisonOperator` from `query.py` (symbols `=`, `!=`, `<`, `>`, `<=`, `>=`). -/
inductive CompOp where
  | eq | ne | lt | gt | le | ge
deriving DecidableEq, Repr

/-- `LogicOperator` from `query.py` (`AND` / `OR`). -/
inductive LogicOp where
  | and | or
deriving DecidableEq, Repr

/-- The runtime kind of a value: the Python type among
`str`, `bool`, `int`, `float`, `datetime`, `timedelta`. -/
inductive VKind where
  | str | bool | int | float | datetime | duration
deriving DecidableEq, Repr

/-- A Python `float`: a finite value (modelled exactly as a rational) or one of
the specials accepted by `float(str)`. -/
inductive PyFloat where
  | finite (q : Rat)
  | pinf
  | ninf
  | nan
deriving DecidableEq, Repr

/-- A `datetime.datetime` as produced by `datetime.strptime` with the formats
used in `parser.py` (naive, microseconds always zero). -/
structure PyDateTime where
  year : Nat
  month : Nat
  day : Nat
  hour : Nat
  minute : Nat
  second : Nat
deriving DecidableEq, Repr

/-- A runtime value: the closed set of Python values produced by
`QueryParser._parse_value` and stored on records.  A `timedelta` built as
`timedelta(hours=h, minutes=m, seconds=s)` is represented by its total number
of seconds. -/
inductive Value where
  | str (s : String)
  | bool (b : Bool)
  | int (n : Int)
  | float (f : PyFloat)
  | datetime (d : PyDateTime)
  | duration (seconds : Nat)
deriving DecidableEq, Repr

/-- `type(value)` — the runtime kind of a value. -/
def kindOf : Value → VKind
  | .str _ => .str
  | .bool _ => .bool
  | .int _ => .int
  | .float _ => .float
  | .datetime _ => .datetime
  | .duration _ => .duration

/-! ## ASCII character helpers -/

/-- Python whitespace (`\s`, `str.strip()`) in the ASCII range:
space, tab, newline, vertical tab, form feed, carriage return. -/
def pyIsSpace (c : Char) : Bool :=
  decide (c.toNat = 32 ∨ c.toNat = 9 ∨ c.toNat = 10 ∨ c.toNat = 11 ∨
          c.toNat = 12 ∨ c.toNat = 13)

/-- An ASCII decimal digit. -/
def isDigitC (c : Char) : Bool := decide (48 ≤ c.toNat ∧ c.toNat ≤ 57)

/-- A `\w` word character (ASCII): letter, digit or underscore. -/
def isWordC (c : Char) : Bool :=
  isDigitC c || decide (65 ≤ c.toNat ∧ c.toNat ≤ 90) ||
    decide (97 ≤ c.toNat ∧ c.toNat ≤ 122) || decide (c.toNat = 95)

/-- `str.lower` on one ASCII character. -/
def pyLowerChar (c : Char) : Char :=
  if 65 ≤ c.toNat ∧ c.toNat ≤ 90 then Char.ofNat (c.toNat + 32) else c

/-- `str.upper` on one ASCII character. -/
def pyUpperChar (c : Char) : Char :=
  if 97 ≤ c.toNat ∧ c.toNat ≤ 122 then Char.ofNat (c.toNat - 32) else c

/-- `str.lower` on a character list. -/
def lowerChars (cs : List Char) : List Char := cs.map pyLowerChar

/-- `token.upper()`. -/
def tokUpper (t : String) : String := (t.data.map pyUpperChar).asString

/-- `str.strip()` — remove leading and trailing whitespace. -/
def stripChars (cs : List Char) : List Char :=
  ((cs.dropWhile pyIsSpace).reverse.dropWhile pyIsSpace).reverse

/-- Numeric value of an ASCII digit. -/
def digitVal (c : Char) : Nat := c.toNat - 48

/-- Fold a digit run into the number it denotes (base 10). -/
def natOfDigits (ds : List Char) : Nat := ds.foldl (fun a c => a * 10 + digitVal c) 0

/-! ## Python `int(str)` -/

/-- After the first digit of a run: consume `(digit | under digit)*`, the
grammar of CPython digit runs with single underscores between digits.
Returns the digits (underscores removed) and the unconsumed remainder. -/
def digTail : List Char → (List Char × List Char)
  | [] => ([], [])
  | c :: cs =>
    if isDigitC c then
      let p := digTail cs
      (c :: p.1, p.2)
    else if c = '_' then
      match cs with
      | c2 :: cs2 =>
        if isDigitC c2 then
          let p := digTail cs2
          (c2 :: p.1, p.2)
        else ([], c :: cs)
      | [] => ([], [c])
    else ([], c :: cs)

/-- A digit run (`digit (digit | under digit)*`); fails unless it starts with
a digit. -/
def readDigits (cs : List Char) : Option (List Char × List Char) :=
  match cs with
  | c :: rest => if isDigitC c then some (c :: (digTail rest).1, (digTail rest).2) else none
  | [] => none

/-- An optional sign; returns `true` for a minus sign. -/
def readSign : List Char → (Bool × List Char)
  | c :: rest =>
    if c = '-' then (true, rest)
    else if c = '+' then (false, rest)
    else (false, c :: rest)
  | [] => (false, [])

/-- Only whitespace remains. -/
def endOk (cs : List Char) : Bool := (cs.dropWhile pyIsSpace).isEmpty

/-- Python `int(value)` on a string: optional surrounding whitespace, optional
sign, a base-10 digit run with single underscores between digits.  `none`
models `ValueError`. -/
def pyIntL (cs : List Char) : Option Int :=
  let r1 := cs.dropWhile pyIsSpace
  let s := readSign r1
  match readDigits s.2 with
  | none => none
  | some (ds, r3) =>
    if endOk r3 then
      some (if s.1 then -(natOfDigits ds : Int) else (natOfDigits ds : Int))
    else none

/-! ## Python `float(str)` -/

/-- Case-insensitive literal word match (`word` given in lowercase). -/
def matchCI : List Char → List Char → Option (List Char)
  | [], cs => some cs
  | _ :: _, [] => none
  | w :: ws, c :: cs => if pyLowerChar c = w then matchCI ws cs else none

/-- The mantissa value `intpart.fracpart` as an exact rational. -/
def mkRatNum (intDs fracDs : List Char) : Rat :=
  (natOfDigits intDs : Rat) + (natOfDigits fracDs : Rat) / ((10 : Rat) ^ fracDs.length)

/-- The mantissa of a Python float literal:
`digits [ dot [digits] ] | dot digits`. -/
def readMantissa (cs : List Char) : Option (Rat × List Char) :=
  match readDigits cs with
  | some (ds, r1) =>
    match r1 with
    | c :: r2 =>
      if c = '.' then
        match readDigits r2 with
        | some (fs, r3) => some (mkRatNum ds fs, r3)
        | none => some (mkRatNum ds [], r2)
      else some (mkRatNum ds [], r1)
    | [] => some (mkRatNum ds [], [])
  | none =>
    match cs with
    | c :: r1 =>
      if c = '.' then
        match readDigits r1 with
        | some (fs, r2) => some (mkRatNum [] fs, r2)
        | none => none
      else none
    | [] => none

/-- `10 ^ e` for a signed exponent. -/
def ratPow10 (e : Int) : Rat :=
  if 0 ≤ e then ((10 : Rat) ^ e.toNat) else 1 / ((10 : Rat) ^ (-e).toNat)

/-- An optional exponent `(e|E) [sign] digits`; `none` consumes nothing. -/
def readExp (cs : List Char) : Option (Int × List Char) :=
  match cs with
  | c :: r1 =>
    if c = 'e' ∨ c = 'E' then
      let s := readSign r1
      match readDigits s.2 with
      | some (ds, r2) =>
        some (if s.1 then -(natOfDigits ds : Int) else (natOfDigits ds : Int), r2)
      | none => none
    else none
  | [] => none

/-- Python `float(value)` on a string: optional whitespace and sign, then
`inf`/`infinity`/`nan` (case-insensitive) or a decimal number with optional
fraction and exponent.  `none` models `ValueError`. -/
def pyFloatL (cs : List Char) : Option PyFloat :=
  let r1 := cs.dropWhile pyIsSpace
  let s := readSign r1
  match matchCI ("infinity".data) s.2 with
  | some r3 => if endOk r3 then some (if s.1 then .ninf else .pinf) else none
  | none =>
  match matchCI ("inf".data) s.2 with
  | some r3 => if endOk r3 then some (if s.1 then .ninf else .pinf) else none
  | none =>
  match matchCI ("nan".data) s.2 with
  | some r3 => if endOk r3 then some PyFloat.nan else none
  | none =>
  match readMantissa s.2 with
  | none => none
  | some (m, r3) =>
    match readExp r3 with
    | some (e, r4) =>
      if endOk r4 then
        some (.finite ((if s.1 then -m else m) * ratPow10 e))
      else none
    | none =>
      if endOk r3 then some (.finite (if s.1 then -m else m)) else none

/-! ## `datetime.strptime` for the fixed format lists

CPython's `_strptime` compiles each directive to a regular expression
(`%Y` → four digits, `%y` → two digits, `%m` → `1[0-2]|0[1-9]|[1-9]`,
`%d` → `3[01]|[12]\d|0[1-9]|[1-9]`, `%H` → `2[0-3]|[0-1]\d|\d`,
`%M` → `[0-5]\d|\d`, `%S` → `6[0-1]|[0-5]\d|\d`, whitespace → `\s+`),
requires the regex to consume the whole input, and then calls the
`datetime` constructor, which additionally validates the calendar day
and rejects the leap seconds `60`/`61` admitted by the `%S` regex.
The embedding matches the token list with the same ordered-alternative,
backtracking semantics and then performs the constructor's checks. -/

/-- One directive or literal of a compiled format string. -/
inductive FmtTok where
  | Y | y | m | d | H | M | S
  | lit (c : Char)
  | ws
deriving DecidableEq, Repr

/-- The fields captured while matching a format. -/
structure TimeParts where
  y4 : Option Nat := none
  y2 : Option Nat := none
  mo : Option Nat := none
  dy : Option Nat := none
  hr : Option Nat := none
  mi : Option Nat := none
  se : Option Nat := none
deriving DecidableEq, Repr

/-- Field setters used by the directive candidates. -/
def setY4 (n : Nat) : TimeParts → TimeParts := fun p => { p with y4 := some n }

/-- Setter for the two-digit-year capture. -/
def setY2 (n : Nat) : TimeParts → TimeParts := fun p => { p with y2 := some n }

/-- Setter for the month capture. -/
def setMo (n : Nat) : TimeParts → TimeParts := fun p => { p with mo := some n }

/-- Setter for the day capture. -/
def setDy (n : Nat) : TimeParts → TimeParts := fun p => { p with dy := some n }

/-- Setter for the hour capture. -/
def setHr (n : Nat) : TimeParts → TimeParts := fun p => { p with hr := some n }

/-- Setter for the minute capture. -/
def setMi (n : Nat) : TimeParts → TimeParts := fun p => { p with mi := some n }

/-- Setter for the second capture. -/
def setSe (n : Nat) : TimeParts → TimeParts := fun p => { p with se := some n }

/-- Two-digit numeric value. -/
def twoDig (a b : Char) : Nat := digitVal a * 10 + digitVal b

/-- The candidate parses of one directive at the head of the input, in the
order the compiled regex alternatives try them (two-digit alternatives
before the bare one-digit `\d`-style alternative, greedy `\s+`). -/
def tokCands (t : FmtTok) (cs : List Char) :
    List ((TimeParts → TimeParts) × List Char) :=
  match t with
  | .Y =>
    match cs with
    | a :: b :: c :: d :: r =>
      if isDigitC a && isDigitC b && isDigitC c && isDigitC d then
        [(setY4 (natOfDigits [a, b, c, d]), r)]
      else []
    | _ => []
  | .y =>
    match cs with
    | a :: b :: r =>
      if isDigitC a && isDigitC b then
        [(setY2 (twoDig a b), r)]
      else []
    | _ => []
  | .m =>
    match cs with
    | a :: b :: r =>
      (if (a = '1' && isDigitC b && decide (digitVal b ≤ 2)) ||
          (a = '0' && isDigitC b && decide (1 ≤ digitVal b)) then
        [(setMo (twoDig a b), r)]
      else []) ++
      (if isDigitC a && decide (1 ≤ digitVal a) then
        [(setMo (digitVal a), b :: r)]
      else [])
    | [a] =>
      if isDigitC a && decide (1 ≤ digitVal a) then
        [(setMo (digitVal a), [])]
      else []
    | [] => []
  | .d =>
    match cs with
    | a :: b :: r =>
      (if (a = '3' && (b = '0' || b = '1')) ||
          ((a = '1' || a = '2') && isDigitC b) ||
          (a = '0' && isDigitC b && decide (1 ≤ digitVal b)) then
        [(setDy (twoDig a b), r)]
      else []) ++
      (if isDigitC a && decide (1 ≤ digitVal a) then
        [(setDy (digitVal a), b :: r)]
      else [])
    | [a] =>
      if isDigitC a && decide (1 ≤ digitVal a) then
        [(setDy (digitVal a), [])]
      else []
    | [] => []
  | .H =>
    match cs with
    | a :: b :: r =>
      (if (a = '2' && isDigitC b && decide (digitVal b ≤ 3)) ||
          ((a = '0' || a = '1') && isDigitC b) then
        [(setHr (twoDig a b), r)]
      else []) ++
      (if isDigitC a then
        [(setHr (digitVal a), b :: r)]
      else [])
    | [a] =>
      if isDigitC a then [(setHr (digitVal a), [])] else []
    | [] => []
  | .M =>
    match cs with
    | a :: b :: r =>
      (if isDigitC a && decide (digitVal a ≤ 5) && isDigitC b then
        [(setMi (twoDig a b), r)]
      else []) ++
      (if isDigitC a then
        [(setMi (digitVal a), b :: r)]
      else [])
    | [a] =>
      if isDigitC a then [(setMi (digitVal a), [])] else []
    | [] => []
  | .S =>
    match cs with
    | a :: b :: r =>
      (if (a = '6' && (b = '0' || b = '1')) ||
          (isDigitC a && decide (digitVal a ≤ 5) && isDigitC b) then
        [(setSe (twoDig a b), r)]
      else []) ++
      (if isDigitC a then
        [(setSe (digitVal a), b :: r)]
      else [])
    | [a] =>
      if isDigitC a then [(setSe (digitVal a), [])] else []
    | [] => []
  | .lit ch =>
    match cs with
    | c :: r => if c = ch then [(id, r)] else []
    | [] => []
  | .ws =>
    let k := (cs.takeWhile pyIsSpace).length
    if k = 0 then []
    else (List.range k).map (fun j => (id, cs.drop (k - j)))

/-- Backtracking match of a whole format against the whole input (the
`unconverted data remains` check of `_strptime` makes the match total). -/
def matchToks : List FmtTok → List Char → TimeParts → Option TimeParts
  | [], cs, p => if cs.isEmpty then some p else none
  | t :: ts, cs, p =>
    (tokCands t cs).findSome? (fun fr => matchToks ts fr.2 (fr.1 p))

/-- Gregorian leap year, as `calendar.isleap`. -/
def isLeap (y : Nat) : Bool :=
  (y % 4 = 0 && decide (y % 100 ≠ 0)) || y % 400 = 0

/-- Days in a month, as CPython's `days_in_month`. -/
def daysInMonth (y m : Nat) : Nat :=
  if m = 2 then (if isLeap y then 29 else 28)
  else if m = 4 ∨ m = 6 ∨ m = 9 ∨ m = 11 then 30
  else 31

/-- The `datetime(...)` construction performed by `_strptime_datetime`:
2-digit years `00`–`68` map into 2000–2068 and `69`–`99` into 1969–1999;
missing fields default to year 1900, month 1, day 1, midnight; the
constructor rejects a year outside `MINYEAR..MAXYEAR` (1..9999), a day
beyond the month's length, and a second above 59. -/
def buildDT (p : TimeParts) : Option PyDateTime :=
  let y : Nat :=
    match p.y4 with
    | some v => v
    | none =>
      match p.y2 with
      | some v => if v ≤ 68 then 2000 + v else 1900 + v
      | none => 1900
  let mo := p.mo.getD 1
  let dy := p.dy.getD 1
  let hr := p.hr.getD 0
  let mi := p.mi.getD 0
  let se := p.se.getD 0
  if 1 ≤ y ∧ y ≤ 9999 ∧ dy ≤ daysInMonth y mo ∧ se ≤ 59 then
    some ⟨y, mo, dy, hr, mi, se⟩
  else none

/-- `datetime.strptime(value, fmt)` for one compiled format. -/
def strptimeOne (fmt : List FmtTok) (cs : List Char) : Option PyDateTime :=
  match matchToks fmt cs {} with
  | none => none
  | some p => buildDT p

/-- The absolute-timestamp format list of `_parse_value`, in source order:
`%Y-%m-%d`, `%y-%m-%d`, `%Y-%m-%d %H:%M`, `%y-%m-%d %H:%M`,
`%Y-%m-%d %H:%M:%S`, `%y-%m-%d %H:%M:%S`. -/
def dtFormats : List (List FmtTok) :=
  [[.Y, .lit '-', .m, .lit '-', .d],
   [.y, .lit '-', .m, .lit '-', .d],
   [.Y, .lit '-', .m, .lit '-', .d, .ws, .H, .lit ':', .M],
   [.y, .lit '-', .m, .lit '-', .d, .ws, .H, .lit ':', .M],
   [.Y, .lit '-', .m, .lit '-', .d, .ws, .H, .lit ':', .M, .lit ':', .S],
   [.y, .lit '-', .m, .lit '-', .d, .ws, .H, .lit ':', .M, .lit ':', .S]]

/-- The timestamp cascade: the first format that `strptime` accepts wins. -/
def strptimeAny (cs : List Char) : Option PyDateTime :=
  dtFormats.findSome? (fun fmt => strptimeOne fmt cs)

/-- The duration format list of `_parse_value`, in source order:
`%H:%M:%S` then `%H:%M`. -/
def durFormats : List (List FmtTok) :=
  [[.H, .lit ':', .M, .lit ':', .S], [.H, .lit ':', .M]]

/-- `datetime.strptime(value, fmt).time()` followed by
`timedelta(hours=t.hour, minutes=t.minute, seconds=t.second)`, for one
duration format; the result is the total number of seconds. -/
def durOne (fmt : List FmtTok) (cs : List Char) : Option Nat :=
  match matchToks fmt cs {} with
  | none => none
  | some p =>
    if p.se.getD 0 ≤ 59 then
      some ((p.hr.getD 0) * 3600 + (p.mi.getD 0) * 60 + p.se.getD 0)
    else none

/-- The duration cascade. -/
def durAny (cs : List Char) : Option Nat :=
  durFormats.findSome? (fun fmt => durOne fmt cs)

/-! ## `QueryParser._parse_value` -/

/-- `value.lower() in ("true", "false")`. -/
def isBoolish (cs : List Char) : Bool :=
  lowerChars cs = ("true".data) || lowerChars cs = ("false".data)

/-- `QueryParser._parse_value`: the ordered coercion cascade —
boolean, int, float, the six timestamp formats, the two duration formats,
and finally the string itself. -/
def parseValue (s : String) : Value :=
  let cs := s.data
  if isBoolish cs then .bool (lowerChars cs = ("true".data))
  else
    match pyIntL cs with
    | some n => .int n
    | none =>
      match pyFloatL cs with
      | some f => .float f
      | none =>
        match strptimeAny cs with
        | some d => .datetime d
        | none =>
          match durAny cs with
          | some t => .duration t
          | none => .str s

/-! ## The AST and the evaluator (`query.py`) -/

/-- `Condition` — one `field operator value` leaf. -/
structure Condition where
  field : String
  operator : CompOp
  value : Value
deriving DecidableEq, Repr

/-- `Queryable` — the closed variant `Condition | Query`; a `Query` is the
`.query` constructor carrying its ordered children and its `LogicOperator`
(the Python dataclass default for the logic operator is `AND`). -/
inductive Queryable where
  | cond (c : Condition)
  | query (queryables : List Queryable) (logic : LogicOp)

/-- A record: pydantic item seen through `getattr(item, field, None)`.
`none` covers both an absent attribute and a `None`-valued one. -/
def Record := String → Option Value

/-- `VALID_OPERATOR_MAP` from `query.py`, keyed by the runtime kind. -/
def validOps : VKind → List CompOp
  | .str => [.eq, .ne]
  | .bool => [.eq, .ne]
  | .int => [.eq, .ne, .lt, .gt, .le, .ge]
  | .float => [.eq, .ne, .lt, .gt, .le, .ge]
  | .datetime => [.eq, .ne, .lt, .gt, .le, .ge]
  | .duration => [.eq, .ne, .lt, .gt, .le, .ge]

/-- `isinstance(value, item_type)` for the six kinds: the kinds are identical,
or the value is a `bool` and the field an `int` (`bool` is a subclass of
`int` in Python; no other subclass relation holds among the six). -/
def pyIsInstance (v : Value) (fieldKind : VKind) : Bool :=
  kindOf v == fieldKind || (kindOf v == .bool && fieldKind == .int)

/-- The numeric view used by Python when comparing `int`-family values:
`bool` participates as `0`/`1`. -/
def toIntlike : Value → Option Int
  | .int n => some n
  | .bool b => some (if b then 1 else 0)
  | _ => none

/-- Python `==` on floats: `nan` is not equal to anything, including itself. -/
def pyFloatEq : PyFloat → PyFloat → Bool
  | .finite a, .finite b => a == b
  | .pinf, .pinf => true
  | .ninf, .ninf => true
  | _, _ => false

/-- Python `<` on floats; any comparison with `nan` is false. -/
def pyFloatLt : PyFloat → PyFloat → Bool
  | .finite a, .finite b => decide (a < b)
  | .finite _, .pinf => true
  | .ninf, .finite _ => true
  | .ninf, .pinf => true
  | _, _ => false

/-- Python `<=` on floats; any comparison with `nan` is false. -/
def pyFloatLe : PyFloat → PyFloat → Bool
  | .finite a, .finite b => decide (a ≤ b)
  | .finite _, .pinf => true
  | .ninf, .nan => false
  | .ninf, _ => true
  | .pinf, .pinf => true
  | _, _ => false

/-- Sort key of a datetime; the lexicographic field order coincides with this
mixed-radix key for the calendar-valid datetimes the system constructs. -/
def dtKey (d : PyDateTime) : Nat :=
  ((((d.year * 13 + d.month) * 32 + d.day) * 24 + d.hour) * 60 + d.minute) * 60 + d.second

/-- Python `x == y` for the value pairs reachable after the `isinstance`
check: same kind, or the `int`/`bool` family.  (Cross-kind numeric equalities
such as `1 == 1.0` are unreachable: the `isinstance` check raises first.) -/
def pyEqVal (x y : Value) : Bool :=
  match toIntlike x, toIntlike y with
  | some a, some b => a == b
  | _, _ =>
    match x, y with
    | .str a, .str b => a == b
    | .float a, .float b => pyFloatEq a b
    | .datetime a, .datetime b => a == b
    | .duration a, .duration b => a == b
    | _, _ => false

/-- Python `x < y` for the reachable value pairs (strings compare by code
point, datetimes by field order, durations by elapsed time). -/
def pyLtVal (x y : Value) : Bool :=
  match toIntlike x, toIntlike y with
  | some a, some b => decide (a < b)
  | _, _ =>
    match x, y with
    | .str a, .str b => decide (a < b)
    | .float a, .float b => pyFloatLt a b
    | .datetime a, .datetime b => decide (dtKey a < dtKey b)
    | .duration a, .duration b => decide (a < b)
    | _, _ => false

/-- Python `x <= y` for the reachable value pairs. -/
def pyLeVal (x y : Value) : Bool :=
  match toIntlike x, toIntlike y with
  | some a, some b => decide (a ≤ b)
  | _, _ =>
    match x, y with
    | .str a, .str b => !decide (b < a)
    | .float a, .float b => pyFloatLe a b
    | .datetime a, .datetime b => decide (dtKey a ≤ dtKey b)
    | .duration a, .duration b => decide (a ≤ b)
    | _, _ => false

/-- `OPERATOR_FUNCTION_MAP`: the comparison function of each operator. -/
def applyOp : CompOp → Value → Value → Bool
  | .eq, x, y => pyEqVal x y
  | .ne, x, y => !pyEqVal x y
  | .lt, x, y => pyLtVal x y
  | .gt, x, y => pyLtVal y x
  | .le, x, y => pyLeVal x y
  | .ge, x, y => pyLeVal y x

/-- The evaluation-time error taxonomy of `query.py`. -/
inductive QueryError where
  | typeMismatch (field : String) (expected actual : VKind)
  | invalidOperator (field : String) (kind : VKind) (op : CompOp)
deriving DecidableEq, Repr

/-- `Condition.evaluate`: absent/null field is `False`; then the `isinstance`
type check (raising `TypeMismatchError`), then the `VALID_OPERATOR_MAP`
check (raising `InvalidOperatorError`), then the comparison. -/
def Condition.evaluate (c : Condition) (item : Record) : Except QueryError Bool :=
  match item c.field with
  | none => .ok false
  | some itemValue =>
    let k := kindOf itemValue
    if pyIsInstance c.value k then
      if c.operator ∈ validOps k then
        .ok (applyOp c.operator itemValue c.value)
      else .error (.invalidOperator c.field k c.operator)
    else .error (.typeMismatch c.field k (kindOf c.value))

mutual

/-- `Queryable.evaluate`: dispatch on the variant; `Query.evaluate` is
`all(...)` under `AND` and `any(...)` under `OR`, over a generator — both
short-circuit and both let a child's exception propagate. -/
def Queryable.evaluate : Queryable → Record → Except QueryError Bool
  | .cond c, item => Condition.evaluate c item
  | .query qs lop, item =>
    match lop with
    | .and => evalAll qs item
    | .or => evalAny qs item

/-- `all(q.evaluate(item) for q in queryables)`. -/
def evalAll : List Queryable → Record → Except QueryError Bool
  | [], _ => .ok true
  | q :: rest, item =>
    match Queryable.evaluate q item with
    | .error e => .error e
    | .ok b => if b then evalAll rest item else .ok false

/-- `any(q.evaluate(item) for q in queryables)`. -/
def evalAny : List Queryable → Record → Except QueryError Bool
  | [], _ => .ok false
  | q :: rest, item =>
    match Queryable.evaluate q item with
    | .error e => .error e
    | .ok b => if b then .ok true else evalAny rest item

end

/-! ## The parser (`parser.py`) -/

/-- The parse-time errors of `parser.py`: `ValueError` with message
`Invalid condition format: <fragment>` from `_parse_condition`, and the
`IndexError` `_parse_query` hits on `or_group[0]` when the token list holds
no condition at all. -/
inductive ParseError where
  | invalidCondition (fragment : String)
  | indexError
deriving DecidableEq, Repr

/-- The operator alternation `(=|!=|<=|>=|<|>)` of `_parse_condition`,
tried in source order (so `<=`/`>=` are matched before `<`/`>`). -/
def matchOp (cs : List Char) : Option (CompOp × List Char) :=
  match cs with
  | [] => none
  | c1 :: rest =>
    if c1 = '=' then some (.eq, rest)
    else
      match rest with
      | c2 :: rest2 =>
        if c1 = '!' ∧ c2 = '=' then some (.ne, rest2)
        else if c1 = '<' ∧ c2 = '=' then some (.le, rest2)
        else if c1 = '>' ∧ c2 = '=' then some (.ge, rest2)
        else if c1 = '<' then some (.lt, rest)
        else if c1 = '>' then some (.gt, rest)
        else none
      | [] =>
        if c1 = '<' then some (.lt, [])
        else if c1 = '>' then some (.gt, [])
        else none

/-- Strip the quote characters `'` and `"` from both ends
(`value.strip(quote-chars)`). -/
def isQuoteC (c : Char) : Bool := decide (c.toNat = 39 ∨ c.toNat = 34)

/-- `value.strip` over the two quote characters. -/
def stripQuotes (cs : List Char) : List Char :=
  ((cs.dropWhile isQuoteC).reverse.dropWhile isQuoteC).reverse

/-- `QueryParser._parse_condition`: match
`(\w+)\s*(=|!=|<=|>=|<|>)\s*(.*)` against the fragment (the maximal word
run, optional whitespace, the operator alternation, optional whitespace,
then everything up to a newline), strip quotes from the value, coerce it,
and build the `Condition`; a failed match raises
`ValueError(f"Invalid condition format: {condition_str}")`. -/
def parseCondition (s : String) : Except ParseError Condition :=
  let cs := s.data
  let fld := cs.takeWhile isWordC
  if fld.isEmpty then .error (.invalidCondition s)
  else
    let r1 := (cs.dropWhile isWordC).dropWhile pyIsSpace
    match matchOp r1 with
    | none => .error (.invalidCondition s)
    | some (op, r2) =>
      let rawv := (r2.dropWhile pyIsSpace).takeWhile (fun c => c ≠ Char.ofNat 10)
      .ok ⟨fld.asString, op, parseValue ((stripQuotes rawv).asString)⟩

/-- One attempt of the separator regex `\s+\b(AND|OR)\b\s+` at the current
position (the word boundaries are implied by the surrounding `\s+`): one or
more whitespace characters, the keyword (`AND` tried before `OR`,
case-insensitively), one or more whitespace characters consumed greedily.
Returns the captured keyword as written and the remainder. -/
def matchSep (cs : List Char) : Option (String × List Char) :=
  if (cs.takeWhile pyIsSpace).isEmpty then none
  else
    match cs.dropWhile pyIsSpace with
    | a :: n :: d :: r2 =>
      if pyUpperChar a = 'A' ∧ pyUpperChar n = 'N' ∧ pyUpperChar d = 'D' ∧
         ¬(r2.takeWhile pyIsSpace).isEmpty then
        some ((String.mk [a, n, d]), r2.dropWhile pyIsSpace)
      else if pyUpperChar a = 'O' ∧ pyUpperChar n = 'R' ∧ pyIsSpace d then
        some ((String.mk [a, n]), (d :: r2).dropWhile pyIsSpace)
      else none
    | _ => none

/-- The scan of `re.split`: walk the string, splitting at every leftmost
match of the separator; fuel is the remaining string length plus one, which
each step strictly consumes. -/
def splitToksFuel : Nat → List Char → List Char → List (List Char)
  | 0, cs, acc => [acc.reverse ++ cs]
  | _ + 1, [], acc => [acc.reverse]
  | fuel + 1, c :: rest, acc =>
    match matchSep (c :: rest) with
    | some (kw, rest2) => acc.reverse :: kw.data :: splitToksFuel fuel rest2 []
    | none => splitToksFuel fuel rest (c :: acc)

/-- `QueryParser._tokenize`: `re.split` on the separator pattern followed by
`token.strip()` on every piece (matched keywords are kept because the
pattern's group captures them). -/
def tokenize (s : String) : List String :=
  (splitToksFuel (s.data.length + 1) s.data []).map (fun cs => (stripChars cs).asString)

/-- `token.upper() == LogicOperator.OR`. -/
def isOrTok (t : String) : Bool := tokUpper t = ("OR")

/-- `token.upper() == LogicOperator.AND`. -/
def isAndTok (t : String) : Bool := tokUpper t = ("AND")

/-- `Query(conditions) if len(conditions) > 1 else conditions[0]`, appended to
the OR-group (a no-op on an empty run, per the `if conditions:` guard). -/
def flushGroup (og conds : List Queryable) : List Queryable :=
  match conds with
  | [] => og
  | [c] => og ++ [c]
  | cs => og ++ [.query cs .and]

/-- The token loop of `_parse_query`: `OR` flushes the current AND-run into
the OR-group, `AND` is skipped, anything else is parsed as a condition and
appended to the current run; the final run is flushed after the loop. -/
def parseQueryAux : List String → List Queryable → List Queryable →
    Except ParseError (List Queryable)
  | [], og, conds => .ok (flushGroup og conds)
  | t :: rest, og, conds =>
    if isOrTok t then parseQueryAux rest (flushGroup og conds) []
    else if isAndTok t then parseQueryAux rest og conds
    else
      match parseCondition t with
      | .error e => .error e
      | .ok c => parseQueryAux rest og (conds ++ [.cond c])

/-- `QueryParser._parse_query`: run the token loop, then either wrap the
OR-group under a top-level OR `Query` (when it has more than one member),
wrap a single bare condition in a default-AND `Query`, return a single
sub-`Query` as is, or hit `or_group[0]` on an empty group (`IndexError`). -/
def parseQuery (tokens : List String) : Except ParseError Queryable :=
  match parseQueryAux tokens [] [] with
  | .error e => .error e
  | .ok og =>
    match og with
    | [] => .error .indexError
    | [x] =>
      match x with
      | .cond c => .ok (.query [.cond c] .and)
      | .query qs l => .ok (.query qs l)
    | xs => .ok (.query xs .or)

namespace QueryParser

/-- `QueryParser.parse`: tokenize, then build the query tree. -/
def parse (s : String) : Except ParseError Queryable :=
  parseQuery (tokenize s)

end QueryParser

/-! ## Concrete records used by the claim instances -/

/-- A record with an integer field `id = 1` (the `single_item` fixture's id). -/
def recId1 : Record := fun f => if f = ("id") then some (.int 1) else none

/-- A record with a string field `name = "Bob"`. -/
def recName : Record := fun f => if f = ("name") then some (.str ("Bob")) else none

/-- A record with no populated field. -/
def recEmpty : Record := fun _ => none

/-- Equality of fallible parse results is decidable (used to instantiate the
general precedence statement on concrete token lists). -/
instance {e a : Type} [DecidableEq e] [DecidableEq a] : DecidableEq (Except e a) := fun
  | .ok x, .ok y => decidable_of_iff (x = y) (by simp)
  | .ok _, .error _ => isFalse (by simp)
  | .error _, .ok _ => isFalse (by simp)
  | .error x, .error y => decidable_of_iff (x = y) (by simp)

/-- The comparison-operator characters `=`, `<`, `>`: every alternative of
the operator alternation `(=|!=|<=|>=|<|>)` contains one of them (a bare
`!` opens no operator). -/
def opChars : List Char := ['=', '<', '>']

/-- The textual symbol of each comparison operator (the `StrEnum` values of
`ComparisonOperator`). -/
def opSymbol : CompOp → List Char
  | .eq => ['=']
  | .ne => ['!', '=']
  | .lt => ['<']
  | .gt => ['>']
  | .le => ['<', '=']
  | .ge => ['>', '=']

/-- Modelled from the spec (§4.4): the maximal runs of condition fragments
between `OR` keywords, with `AND` keywords dropped inside a run and empty
runs discarded — the spec-side description of the grouping that
`_parse_query` performs. -/
def orRunsAux : List String → List String → List (List String)
  | [], cur => if cur.isEmpty then [] else [cur]
  | t :: rest, cur =>
    if isOrTok t then
      if cur.isEmpty then orRunsAux rest [] else cur :: orRunsAux rest []
    else if isAndTok t then orRunsAux rest cur
    else orRunsAux rest (cur ++ [t])

/-- The OR-separated runs of a token list. -/
def orRuns (ts : List String) : List (List String) := orRunsAux ts []

/-- A condition fragment as a leaf. -/
def condQ (f : String → Condition) (t : String) : Queryable := .cond (f t)

/-- The spec-side group of one run: a single condition stays unwrapped, a
longer run becomes an `AND` sub-query. -/
def runGroup (f : String → Condition) (run : List String) : Queryable :=
  match run with
  | [t] => .cond (f t)
  | ts => .query (ts.map (condQ f)) .and

/-! ## C8, C9 — evaluator identities -/

/-- C8: for every record, a `Query` with logic `AND` and an empty children
list evaluates to true, and a `Query` with logic `OR` and an empty children
list evaluates to false. -/
theorem c8_empty_query_identities (r : Record) :
    Queryable.evaluate (.query [] .and) r = .ok true ∧
    Queryable.evaluate (.query [] .or) r = .ok false :=
  ⟨rfl, rfl⟩

/-- C8 witness: the identities at the empty record. -/
theorem c8_empty_query_identities_witness :
    Queryable.evaluate (.query [] .and) recEmpty = .ok true ∧
    Queryable.evaluate (.query [] .or) recEmpty = .ok false :=
  c8_empty_query_identities recEmpty

/-- C9: for every condition (any operator, any literal kind) and every record
on which the condition's field is absent or null, `Condition.evaluate`
returns false and raises no error. -/
theorem c9_missing_field_false (c : Condition) (r : Record)
    (h : r c.field = none) : Condition.evaluate c r = .ok false := by
  simp [Condition.evaluate, h]

/-- C9 witness: an illegal operator and an illegal literal kind are both
irrelevant on an absent field. -/
theorem c9_missing_field_false_witness :
    Condition.evaluate ⟨"x", .lt, .str ("a")⟩ recEmpty = .ok false :=
  c9_missing_field_false ⟨"x", .lt, .str ("a")⟩ recEmpty rfl

/-! ## C2 — the evaluation-time type check -/

/-- C2 counterexample: the literal `True` (kind `bool`) against the integer
field `id = 1` — the kinds are not identical, yet `Condition.evaluate`
returns `True` (Python's `isinstance(True, int)` holds and `1 == True`)
instead of raising `TypeMismatchError`. -/
theorem c2_counterexample :
    Condition.evaluate ⟨"id", .eq, .bool true⟩ recId1 = .ok true ∧
    kindOf (.bool true) = VKind.bool ∧ kindOf (.int 1) = VKind.int :=
  ⟨rfl, rfl, rfl⟩

/-- C2 (amended): the type check is `isinstance`-based rather than exact:
a literal mismatches exactly when its kind neither equals the field's runtime
kind nor is the `bool`-literal-against-`int`-field subclass case; on a
mismatch `TypeMismatchError` carries the field name, the field's kind and the
literal's kind, and when `isinstance` passes no `TypeMismatchError` can be
raised (evaluation returns a boolean or raises `InvalidOperatorError`). -/
theorem c2_type_check_is_subclass_based (c : Condition) (r : Record) (v : Value)
    (hv : r c.field = some v) :
    (pyIsInstance c.value (kindOf v) = false →
      Condition.evaluate c r =
        .error (.typeMismatch c.field (kindOf v) (kindOf c.value))) ∧
    (pyIsInstance c.value (kindOf v) = true →
      (∃ b, Condition.evaluate c r = .ok b) ∨
      Condition.evaluate c r =
        .error (.invalidOperator c.field (kindOf v) c.operator)) := by
  constructor
  · intro h
    simp [Condition.evaluate, hv, h]
  · intro h
    by_cases hop : c.operator ∈ validOps (kindOf v)
    · exact Or.inl ⟨applyOp c.operator v c.value, by simp [Condition.evaluate, hv, h, hop]⟩
    · exact Or.inr (by simp [Condition.evaluate, hv, h, hop])

/-- C2 witness: the repository's own tested mismatch — an `int` literal
against the string field `name` — raises `TypeMismatchError`. -/
theorem c2_type_check_is_subclass_based_witness :
    Condition.evaluate ⟨"name", .eq, .int 1⟩ recName =
      .error (.typeMismatch ("name") .str .int) :=
  (c2_type_check_is_subclass_based ⟨"name", .eq, .int 1⟩ recName (.str ("Bob")) rfl).1 rfl

/-! ## C10 — the operator policy -/

/-- C10: `VALID_OPERATOR_MAP` grants `{EQ, NE}` to `str` and `bool` and the
full operator set to `int`, `float`, `datetime` and `timedelta`; whenever the
`isinstance` check passes but the operator is outside the field kind's legal
set, evaluation raises `InvalidOperatorError`; in particular
`Condition("name", LT, "Alice")` on a string-valued `name` field does. -/
theorem c10_operator_policy (c : Condition) (r : Record) (v : Value) :
    (validOps .str = [.eq, .ne] ∧ validOps .bool = [.eq, .ne] ∧
     validOps .int = [.eq, .ne, .lt, .gt, .le, .ge] ∧
     validOps .float = [.eq, .ne, .lt, .gt, .le, .ge] ∧
     validOps .datetime = [.eq, .ne, .lt, .gt, .le, .ge] ∧
     validOps .duration = [.eq, .ne, .lt, .gt, .le, .ge]) ∧
    (r c.field = some v → pyIsInstance c.value (kindOf v) = true →
      c.operator ∉ validOps (kindOf v) →
      Condition.evaluate c r =
        .error (.invalidOperator c.field (kindOf v) c.operator)) ∧
    Condition.evaluate ⟨"name", .lt, .str ("Alice")⟩ recName =
      .error (.invalidOperator ("name") .str .lt) := by
  refine ⟨⟨rfl, rfl, rfl, rfl, rfl, rfl⟩, ?_, rfl⟩
  intro hv hinst hop
  simp [Condition.evaluate, hv, hinst, hop]

/-- C10 witness: `>` on a string-valued field raises `InvalidOperatorError`. -/
theorem c10_operator_policy_witness :
    Condition.evaluate ⟨"name", .gt, .str ("Z")⟩ recName =
      .error (.invalidOperator ("name") .str .gt) :=
  (c10_operator_policy ⟨"name", .gt, .str ("Z")⟩ recName (.str ("Bob"))).2.1 rfl rfl
    (by decide)

/-! ## C3 — short-circuit evaluation -/

/-- C3: an `AND` query whose first child evaluates false returns false
without evaluating the rest (in particular when the second child would
raise), and an `OR` query whose first child evaluates true returns true
without evaluating the rest; children are evaluated in order and evaluation
stops at the first decisive child. -/
theorem c3_short_circuit (q1 q2 : Queryable) (qs : List Queryable) (r : Record)
    (e e2 : QueryError) :
    (Queryable.evaluate q1 r = .ok false → Queryable.evaluate q2 r = .error e →
      Queryable.evaluate (.query [q1, q2] .and) r = .ok false) ∧
    (Queryable.evaluate q1 r = .ok true → Queryable.evaluate q2 r = .error e2 →
      Queryable.evaluate (.query [q1, q2] .or) r = .ok true) ∧
    (Queryable.evaluate q1 r = .ok false →
      Queryable.evaluate (.query (q1 :: qs) .and) r = .ok false) ∧
    (Queryable.evaluate q1 r = .ok true →
      Queryable.evaluate (.query (q1 :: qs) .or) r = .ok true) := by
  refine ⟨fun h1 _ => ?_, fun h1 _ => ?_, fun h1 => ?_, fun h1 => ?_⟩ <;>
    simp [Queryable.evaluate, evalAll, evalAny, h1]

/-- C3 witness: with `id = 1` on the record, `id = 2 AND id = "x"` is false
and `id = 1 OR id = "x"` is true, although evaluating `id = "x"` alone
raises `TypeMismatchError`. -/
theorem c3_short_circuit_witness :
    Queryable.evaluate
      (.query [.cond ⟨"id", .eq, .int 2⟩, .cond ⟨"id", .eq, .str ("x")⟩] .and)
      recId1 = .ok false ∧
    Queryable.evaluate
      (.query [.cond ⟨"id", .eq, .int 1⟩, .cond ⟨"id", .eq, .str ("x")⟩] .or)
      recId1 = .ok true :=
  ⟨(c3_short_circuit (.cond ⟨"id", .eq, .int 2⟩) (.cond ⟨"id", .eq, .str ("x")⟩) []
      recId1 (.typeMismatch ("id") .int .str) (.typeMismatch ("id") .int .str)).1 rfl rfl,
   (c3_short_circuit (.cond ⟨"id", .eq, .int 1⟩) (.cond ⟨"id", .eq, .str ("x")⟩) []
      recId1 (.typeMismatch ("id") .int .str) (.typeMismatch ("id") .int .str)).2.1 rfl rfl⟩

/-! ## C5 — the tokenizer and quoted substrings -/

/-- C5: the separator pattern `\s+\b(AND|OR)\b\s+` of `_tokenize` is applied
to the raw string with no awareness of quotes, so an `AND` inside a quoted
value literal is split on: `name = 'Alice AND Bob'` is cut into three
segments and parsing then fails on the fragment `Bob'` — the quoted fragment
does not reach the condition builder intact (contradicting the function's own
docstring, which promises that quoted strings are preserved). -/
theorem c5_tokenizer_splits_inside_quotes :
    tokenize ("name = 'Alice AND Bob'") = ["name = 'Alice", "AND", "Bob'"] ∧
    QueryParser.parse ("name = 'Alice AND Bob'") =
      .error (.invalidCondition ("Bob'")) :=
  ⟨rfl, rfl⟩

/-! ## C6 — the empty query string -/

/-- C6 counterexample: parsing the empty string does not succeed — it raises
`ValueError("Invalid condition format: ")`, not an empty-children `Query`. -/
theorem c6_counterexample :
    QueryParser.parse "" = .error (.invalidCondition "") :=
  rfl

/-- C6 (amended): tokenizing the empty string yields the single empty
segment, which `_parse_condition` rejects, so `parse("")` raises a syntax
error naming the empty fragment and no `Query` is produced. -/
theorem c6_empty_string_raises :
    tokenize "" = [""] ∧
    parseCondition "" = .error (.invalidCondition "") ∧
    QueryParser.parse "" = .error (.invalidCondition "") :=
  ⟨rfl, rfl, rfl⟩

/-! ## C7 — malformed condition fragments -/

/-- A whitespace character is not a word character. -/
theorem pyIsSpace_not_word {c : Char} (h : pyIsSpace c = true) :
    isWordC c = false := by
  simp only [pyIsSpace, decide_eq_true_eq] at h
  simp only [isWordC, isDigitC, Bool.or_eq_false_iff, decide_eq_false_iff_not]
  omega

/-- `matchOp` fails on any string containing none of `=`, `<`, `>` — every
alternative of the operator alternation needs one of them where it is
matched. -/
theorem matchOp_none_without_opChars {cs : List Char}
    (h : ∀ c ∈ cs, c ∉ opChars) : matchOp cs = none := by
  match cs with
  | [] => rfl
  | c1 :: rest =>
    have hc1 := h c1 (List.mem_cons_self c1 rest)
    simp only [opChars, List.mem_cons, List.not_mem_nil, or_false, not_or] at hc1
    obtain ⟨h1, h2, h3⟩ := hc1
    cases rest with
    | nil => simp [matchOp, h1, h2, h3]
    | cons c2 rest2 =>
      have hc2 := h c2 (List.mem_cons_of_mem _ (List.mem_cons_self c2 rest2))
      simp only [opChars, List.mem_cons, List.not_mem_nil, or_false, not_or] at hc2
      simp [matchOp, h1, h2, h3, hc2.1]

/-- Splitting `takeWhile`/`dropWhile` at an all-satisfying prefix followed
by a failing head. -/
theorem takeDrop_split (p : Char → Bool) (l1 l2 : List Char)
    (h1 : ∀ c ∈ l1, p c = true)
    (h2 : ∀ c, l2.head? = some c → p c = false) :
    (l1 ++ l2).takeWhile p = l1 ∧ (l1 ++ l2).dropWhile p = l2 := by
  induction l1 with
  | nil =>
    simp only [List.nil_append]
    cases l2 with
    | nil => exact ⟨rfl, rfl⟩
    | cons c t =>
      have hc := h2 c rfl
      simp [List.takeWhile_cons, List.dropWhile_cons, hc]
  | cons x xs ih =>
    have hx := h1 x (List.mem_cons_self x xs)
    have hih := ih (fun y hy => h1 y (List.mem_cons_of_mem _ hy))
    simp [List.takeWhile_cons, List.dropWhile_cons, hx, hih]

/-- Dropping over an all-satisfying list leaves nothing. -/
theorem dropWhile_all (p : Char → Bool) (l : List Char)
    (h : ∀ c ∈ l, p c = true) : l.dropWhile p = [] := by
  induction l with
  | nil => rfl
  | cons x xs ih =>
    have hx := h x (List.mem_cons_self x xs)
    simp [List.dropWhile_cons, hx,
      ih (fun y hy => h y (List.mem_cons_of_mem _ hy))]

/-- `matchOp` recognises exactly each operator symbol when only whitespace
follows (the two-character alternatives are tried first, so `<=`/`>=` are
never read as `<`/`>`). -/
theorem matchOp_opSymbol (op : CompOp) (ws2 : List Char)
    (h2 : ∀ c ∈ ws2, pyIsSpace c = true) :
    matchOp (opSymbol op ++ ws2) = some (op, ws2) := by
  have hne : ∀ c ∈ ws2, ¬(c = '=') := by
    intro c hc he
    subst he
    exact absurd (h2 _ hc) (by decide)
  have d1 : ('!' : Char) ≠ '=' := by decide
  have d2 : ('<' : Char) ≠ '=' := by decide
  have d3 : ('<' : Char) ≠ '!' := by decide
  have d4 : ('<' : Char) ≠ '>' := by decide
  have d5 : ('>' : Char) ≠ '=' := by decide
  have d6 : ('>' : Char) ≠ '!' := by decide
  have d7 : ('>' : Char) ≠ '<' := by decide
  cases op with
  | eq => simp [opSymbol, matchOp]
  | ne => simp [opSymbol, matchOp, d1]
  | le => simp [opSymbol, matchOp, d2, d3]
  | ge => simp [opSymbol, matchOp, d5, d6, d7]
  | lt =>
    cases ws2 with
    | nil => simp [opSymbol, matchOp, d2, d3]
    | cons c2 t =>
      have hc2 := hne c2 (List.mem_cons_self c2 t)
      simp [opSymbol, matchOp, d2, d3, hc2]
  | gt =>
    cases ws2 with
    | nil => simp [opSymbol, matchOp, d5, d6, d7]
    | cons c2 t =>
      have hc2 := hne c2 (List.mem_cons_self c2 t)
      simp [opSymbol, matchOp, d5, d6, d7, hc2]

/-- C7 counterexample: the fragment `name =` (operator but no value) parses
successfully — the regex group `(.*)` matches the empty value, which coerces
to the empty string — so a `Condition` is constructed. -/
theorem c7_counterexample :
    QueryParser.parse ("name =") = .ok (.query [.cond ⟨"name", .eq, .str ""⟩] .and) :=
  rfl

/-- C7 (amended): every condition fragment containing none of the
comparison-operator characters `=`, `<`, `>` fails with the syntax error
naming the offending fragment; every error the condition builder can raise
names its fragment; and a fragment made of a field, an operator and only
whitespace where the value should be does not fail — it parses into a
`Condition` whose value is the empty string. -/
theorem c7_missing_operator_fails (s : String) :
    ((∀ c ∈ s.data, c ∉ opChars) →
      parseCondition s = .error (.invalidCondition s)) ∧
    (∀ e, parseCondition s = .error e → e = .invalidCondition s) ∧
    (∀ (fld ws1 ws2 : List Char) (op : CompOp),
      s.data = fld ++ ws1 ++ opSymbol op ++ ws2 →
      fld ≠ [] → (∀ c ∈ fld, isWordC c = true) →
      (∀ c ∈ ws1, pyIsSpace c = true) → (∀ c ∈ ws2, pyIsSpace c = true) →
      parseCondition s = .ok ⟨fld.asString, op, .str ""⟩) := by
  refine ⟨fun h => ?_, fun e he => ?_,
    fun fld ws1 ws2 op hs hfne hfw hws1 hws2 => ?_⟩
  · unfold parseCondition
    by_cases hf : (s.data.takeWhile isWordC).isEmpty
    · simp [hf]
    · have hmo : matchOp ((s.data.dropWhile isWordC).dropWhile pyIsSpace) = none := by
        refine matchOp_none_without_opChars (fun c1 hc1 => h c1 ?_)
        exact (List.dropWhile_sublist _).mem ((List.dropWhile_sublist _).mem hc1)
      simp [hf, hmo]
  · unfold parseCondition at he
    by_cases hf : (s.data.takeWhile isWordC).isEmpty
    · simp only [hf, if_true, Except.error.injEq] at he
      exact he.symm
    · simp only [hf, Bool.false_eq_true, if_false] at he
      cases hmo : matchOp ((s.data.dropWhile isWordC).dropWhile pyIsSpace) with
      | none =>
        rw [hmo] at he
        simp only [Except.error.injEq] at he
        exact he.symm
      | some pr => rw [hmo] at he; cases he
  · obtain ⟨c0, rest0, heq, hc0s, hc0w⟩ :
        ∃ c0 rest0, opSymbol op ++ ws2 = c0 :: rest0 ∧
          pyIsSpace c0 = false ∧ isWordC c0 = false := by
      cases op <;> exact ⟨_, _, rfl, by decide, by decide⟩
    have hassoc : s.data = fld ++ (ws1 ++ (opSymbol op ++ ws2)) := by
      rw [hs]
      simp [List.append_assoc]
    have hd1 : ∀ c, (ws1 ++ (opSymbol op ++ ws2)).head? = some c →
        isWordC c = false := by
      intro c hc
      cases ws1 with
      | cons w t =>
        simp only [List.cons_append, List.head?_cons, Option.some.injEq] at hc
        subst hc
        exact pyIsSpace_not_word (hws1 w (List.mem_cons_self w t))
      | nil =>
        rw [List.nil_append, heq] at hc
        simp only [List.head?_cons, Option.some.injEq] at hc
        subst hc
        exact hc0w
    have hd2 : ∀ c, (opSymbol op ++ ws2).head? = some c →
        pyIsSpace c = false := by
      intro c hc
      rw [heq] at hc
      simp only [List.head?_cons, Option.some.injEq] at hc
      subst hc
      exact hc0s
    have hsplit1 := takeDrop_split isWordC fld (ws1 ++ (opSymbol op ++ ws2)) hfw hd1
    have hsplit2 := takeDrop_split pyIsSpace ws1 (opSymbol op ++ ws2) hws1 hd2
    have hfE : fld.isEmpty = false := by
      cases fld with
      | nil => exact absurd rfl hfne
      | cons _ _ => rfl
    have hmo := matchOp_opSymbol op ws2 hws2
    have hws2nil := dropWhile_all pyIsSpace ws2 hws2
    simp only [parseCondition, hassoc, hsplit1.1, hsplit1.2, hfE,
      Bool.false_eq_true, if_false, hsplit2.2, hmo, hws2nil, List.takeWhile_nil]
    rfl

/-- C7 witness: `a!b` contains no comparison-operator character (its bare
`!` opens no operator) and is rejected with the error naming it; `name =`
parses to the empty-string-valued condition through the general
missing-value statement. -/
theorem c7_missing_operator_fails_witness :
    parseCondition ("a!b") = .error (.invalidCondition ("a!b")) ∧
    parseCondition ("name =") = .ok ⟨"name", .eq, .str ""⟩ :=
  ⟨(c7_missing_operator_fails ("a!b")).1 (by decide),
   (c7_missing_operator_fails ("name =")).2.2 ("name".data) ([' ']) [] .eq
     (by decide) (by decide) (by decide) (by decide) (by decide)⟩

/-! ## C1 — AND binds tighter than OR -/

/-- Unfolding lemma for `orRunsAux` on a cons cell. -/
theorem orRunsAux_cons (t : String) (rest cur : List String) :
    orRunsAux (t :: rest) cur =
      if isOrTok t then
        (if cur.isEmpty then orRunsAux rest [] else cur :: orRunsAux rest [])
      else if isAndTok t then orRunsAux rest cur
      else orRunsAux rest (cur ++ [t]) :=
  rfl

/-- Flushing a parsed run agrees with the spec-side group of the run. -/
theorem flushGroup_map (f : String → Condition) (og : List Queryable)
    (cur : List String) :
    flushGroup og (cur.map (condQ f)) =
      og ++ (if cur.isEmpty then [] else [runGroup f cur]) := by
  match cur with
  | [] => simp [flushGroup]
  | [t] => simp [flushGroup, runGroup, condQ]
  | a :: b :: rest => simp [flushGroup, runGroup]

/-- The token loop of `_parse_query`, started with OR-group `og` and a
current run `cur` all of whose fragments parsed to conditions, produces
`og` followed by the groups of the OR-separated runs. -/
theorem parseQueryAux_runs (f : String → Condition) (ts : List String) :
    ∀ (og : List Queryable) (cur : List String),
      (∀ t ∈ ts, isOrTok t = false → isAndTok t = false →
        parseCondition t = .ok (f t)) →
      parseQueryAux ts og (cur.map (condQ f)) =
        .ok (og ++ (orRunsAux ts cur).map (runGroup f)) := by
  induction ts with
  | nil =>
    intro og cur _
    rw [show parseQueryAux [] og (cur.map (condQ f)) =
          .ok (flushGroup og (cur.map (condQ f))) from rfl,
        flushGroup_map]
    cases hc : cur.isEmpty <;> simp [orRunsAux, hc]
  | cons t rest ih =>
    intro og cur h
    have hrest : ∀ t2 ∈ rest, isOrTok t2 = false → isAndTok t2 = false →
        parseCondition t2 = .ok (f t2) :=
      fun t2 ht2 => h t2 (List.mem_cons_of_mem _ ht2)
    by_cases hor : isOrTok t
    · have step : parseQueryAux (t :: rest) og (cur.map (condQ f)) =
          parseQueryAux rest (flushGroup og (cur.map (condQ f))) [] := by
        simp [parseQueryAux, hor]
      rw [step, show ([] : List Queryable) = ([] : List String).map (condQ f) from rfl,
          ih _ [] hrest, flushGroup_map, orRunsAux_cons]
      cases hc : cur.isEmpty <;> simp [hor, hc, List.append_assoc]
    · by_cases hand : isAndTok t
      · have step : parseQueryAux (t :: rest) og (cur.map (condQ f)) =
            parseQueryAux rest og (cur.map (condQ f)) := by
          simp [parseQueryAux, hor, hand]
        rw [step, ih _ _ hrest, orRunsAux_cons]
        simp [hor, hand]
      · have hc := h t (List.mem_cons_self t rest) (by simp [hor]) (by simp [hand])
        have step : parseQueryAux (t :: rest) og (cur.map (condQ f)) =
            parseQueryAux rest og ((cur ++ [t]).map (condQ f)) := by
          simp [parseQueryAux, hor, hand, hc, List.map_append, condQ]
        rw [step, ih _ _ hrest, orRunsAux_cons]
        simp [hor, hand]

/-- C1: (i) the precedence example — parsing
`id = 1 OR name = Alice AND active = True` yields an `OR` query whose
children are, in order, the condition `(id, EQ, 1)` and the `AND` sub-query
of `(name, EQ, "Alice")` and `(active, EQ, True)`; (ii) in general, whenever
every non-keyword token parses to a condition and more than one OR-separated
run exists, `_parse_query` returns one top-level `OR` query whose children
are the runs' groups in order — a run of several conditions becomes an `AND`
sub-query, a single condition stays unwrapped. -/
theorem c1_and_binds_tighter_than_or :
    QueryParser.parse ("id = 1 OR name = Alice AND active = True") =
      .ok (.query [.cond ⟨"id", .eq, .int 1⟩,
        .query [.cond ⟨"name", .eq, .str ("Alice")⟩,
                .cond ⟨"active", .eq, .bool true⟩] .and] .or) ∧
    ∀ (f : String → Condition) (ts : List String),
      (∀ t ∈ ts, isOrTok t = false → isAndTok t = false →
        parseCondition t = .ok (f t)) →
      1 < (orRuns ts).length →
      parseQuery ts = .ok (.query ((orRuns ts).map (runGroup f)) .or) := by
  refine ⟨rfl, fun f ts h hlen => ?_⟩
  have haux : parseQueryAux ts [] [] = .ok ((orRuns ts).map (runGroup f)) := by
    have := parseQueryAux_runs f ts [] [] h
    simpa [orRuns] using this
  obtain ⟨a, b, l, hshape⟩ :
      ∃ a b l, (orRuns ts).map (runGroup f) = a :: b :: l := by
    rcases hr : (orRuns ts).map (runGroup f) with _ | ⟨a, _ | ⟨b, l⟩⟩
    · rw [List.map_eq_nil_iff.mp hr] at hlen; simp at hlen
    · have : (orRuns ts).length = 1 := by
        have := congrArg List.length hr
        simpa using this
      omega
    · exact ⟨a, b, l, rfl⟩
  unfold parseQuery
  rw [haux, hshape]

/-- C1 witness: two runs — `a = 1` and `b = 2 AND c = 3` — grouped under a
top-level `OR`. -/
theorem c1_and_binds_tighter_than_or_witness :
    parseQuery ["a = 1", "OR", "b = 2", "AND", "c = 3"] =
      .ok (.query [.cond ⟨"a", .eq, .int 1⟩,
        .query [.cond ⟨"b", .eq, .int 2⟩, .cond ⟨"c", .eq, .int 3⟩] .and] .or) :=
  (c1_and_binds_tighter_than_or).2
    (fun t =>
      if t = ("a = 1") then ⟨"a", .eq, .int 1⟩
      else if t = ("b = 2") then ⟨"b", .eq, .int 2⟩
      else ⟨"c", .eq, .int 3⟩)
    ["a = 1", "OR", "b = 2", "AND", "c = 3"] (by decide) (by decide)

/-! ## C4 — the literal-coercion order -/

/-- A boolean-spelling string starts with a letter that lowercases to `t` or
`f`; every consequence needed to rule the numeric parsers out follows from
that first character alone. -/
theorem boolish_head (cs : List Char) (hb : isBoolish cs = true) :
    ∃ c cs2, cs = c :: cs2 ∧ (pyLowerChar c = 't' ∨ pyLowerChar c = 'f') := by
  simp only [isBoolish, Bool.or_eq_true, decide_eq_true_eq] at hb
  cases cs with
  | nil => rcases hb with hb | hb <;> simp [lowerChars] at hb
  | cons c cs2 =>
    refine ⟨c, cs2, rfl, ?_⟩
    rcases hb with hb | hb
    · exact Or.inl (by simpa [lowerChars] using congrArg (List.head? ·) hb)
    · exact Or.inr (by simpa [lowerChars] using congrArg (List.head? ·) hb)

/-- The facts about a character whose lowering is `t` or `f`. -/
theorem boolish_head_facts {c : Char}
    (h : pyLowerChar c = 't' ∨ pyLowerChar c = 'f') :
    pyIsSpace c = false ∧ c ≠ '-' ∧ c ≠ '+' ∧ isDigitC c = false := by
  unfold pyLowerChar at h
  by_cases hb : 65 ≤ c.toNat ∧ c.toNat ≤ 90
  · refine ⟨by simp [pyIsSpace]; omega, ?_, ?_, by simp [isDigitC]; omega⟩
    · intro he; subst he; exact absurd hb (by decide)
    · intro he; subst he; exact absurd hb (by decide)
  · rw [if_neg hb] at h
    rcases h with h | h <;> subst h <;> exact ⟨rfl, by decide, by decide, rfl⟩

/-- If `int(value)` succeeds, the value is not a boolean spelling. -/
theorem pyIntL_boolish {cs : List Char} {n : Int} (h : pyIntL cs = some n) :
    isBoolish cs = false := by
  cases hb : isBoolish cs with
  | false => rfl
  | true =>
    obtain ⟨c, cs2, rfl, hc⟩ := boolish_head cs hb
    obtain ⟨h1, h2, h3, h4⟩ := boolish_head_facts hc
    simp [pyIntL, List.dropWhile_cons, h1, readSign, h2, h3, readDigits, h4] at h

/-- The facts about an ASCII digit character. -/
theorem digit_head_facts {a : Char} (ha : isDigitC a = true) :
    pyIsSpace a = false ∧ a ≠ '-' ∧ a ≠ '+' ∧ pyLowerChar a = a ∧
    a ≠ 'i' ∧ a ≠ 'n' ∧ a ≠ 't' ∧ a ≠ 'f' := by
  simp only [isDigitC, decide_eq_true_eq] at ha
  refine ⟨by simp [pyIsSpace]; omega, ?_, ?_, ?_, ?_, ?_, ?_, ?_⟩ <;>
    first
    | (intro he; subst he; exact absurd ha (by decide))
    | (unfold pyLowerChar; rw [if_neg (by omega)])

/-- `digTail` consumes a leading digit. -/
theorem digTail_cons_digit (c : Char) (cs : List Char) (h : isDigitC c = true) :
    digTail (c :: cs) = (c :: (digTail cs).1, (digTail cs).2) := by
  cases cs <;> simp [digTail, h]

/-- `digTail` stops at a character that is neither digit nor underscore. -/
theorem digTail_cons_stop (c : Char) (cs : List Char) (h1 : isDigitC c = false)
    (h2 : c ≠ '_') : digTail (c :: cs) = ([], c :: cs) := by
  cases cs <;> simp [digTail, h1, h2]

/-- `digTail` stops exactly at the first character that is neither a digit
nor an underscore starting an underscore-digit pair. -/
theorem digTail_all_digits (ds : List Char) (r : List Char)
    (hds : ∀ x ∈ ds, isDigitC x = true)
    (hr : r = [] ∨ ∃ h2 t2, r = h2 :: t2 ∧ isDigitC h2 = false ∧ h2 ≠ '_') :
    digTail (ds ++ r) = (ds, r) := by
  induction ds with
  | nil =>
    rcases hr with rfl | ⟨h2, t2, rfl, hh2, hu⟩
    · rfl
    · exact digTail_cons_stop h2 t2 hh2 hu
  | cons x xs ih =>
    have hx := hds x (List.mem_cons_self x xs)
    have hih := ih (fun y hy => hds y (List.mem_cons_of_mem _ hy))
    rw [List.cons_append, digTail_cons_digit x (xs ++ r) hx, hih]

/-- The key shape fact: every string accepted by one of the six timestamp
formats starts with two digits followed either by two more digits and a
dash (`%Y`) or directly by a dash (`%y`). -/
theorem matchToks_lit_shape {c0 : Char} {ts : List FmtTok} {cs : List Char}
    {p q : TimeParts} (h : matchToks (.lit c0 :: ts) cs p = some q) :
    ∃ r, cs = c0 :: r := by
  cases cs with
  | nil => simp [matchToks, tokCands] at h
  | cons e r =>
    by_cases he : e = c0
    · exact ⟨r, by rw [he]⟩
    · simp [matchToks, tokCands, he] at h

/-- Matching a format that starts with `%Y` forces four leading digits. -/
theorem matchToks_Y_shape {ts : List FmtTok} {cs : List Char} {p q : TimeParts}
    (h : matchToks (.Y :: ts) cs p = some q) :
    ∃ a b c d r, cs = a :: b :: c :: d :: r ∧ isDigitC a = true ∧
      isDigitC b = true ∧ isDigitC c = true ∧ isDigitC d = true ∧
      ∃ p2, matchToks ts r p2 = some q := by
  match cs with
  | [] => simp [matchToks, tokCands] at h
  | [a] => simp [matchToks, tokCands] at h
  | [a, b] => simp [matchToks, tokCands] at h
  | [a, b, c] => simp [matchToks, tokCands] at h
  | a :: b :: c :: d :: r =>
    by_cases hd : (isDigitC a && isDigitC b && isDigitC c && isDigitC d) = true
    · simp only [Bool.and_eq_true] at hd
      obtain ⟨⟨⟨ha, hb⟩, hc⟩, hd4⟩ := hd
      refine ⟨a, b, c, d, r, rfl, ha, hb, hc, hd4,
        ⟨setY4 (natOfDigits [a, b, c, d]) p, ?_⟩⟩
      simp only [matchToks, tokCands, ha, hb, hc, hd4, Bool.and_self, if_true,
        List.findSome?] at h
      cases hm : matchToks ts r (setY4 (natOfDigits [a, b, c, d]) p) with
      | none => rw [hm] at h; simp at h
      | some v => rw [hm] at h; simpa using h
    · simp [matchToks, tokCands, hd] at h

/-- Matching a format that starts with `%y` forces two leading digits. -/
theorem matchToks_y_shape {ts : List FmtTok} {cs : List Char} {p q : TimeParts}
    (h : matchToks (.y :: ts) cs p = some q) :
    ∃ a b r, cs = a :: b :: r ∧ isDigitC a = true ∧ isDigitC b = true ∧
      ∃ p2, matchToks ts r p2 = some q := by
  match cs with
  | [] => simp [matchToks, tokCands] at h
  | [a] => simp [matchToks, tokCands] at h
  | a :: b :: r =>
    by_cases hd : (isDigitC a && isDigitC b) = true
    · simp only [Bool.and_eq_true] at hd
      obtain ⟨ha, hb⟩ := hd
      refine ⟨a, b, r, rfl, ha, hb, ⟨setY2 (twoDig a b) p, ?_⟩⟩
      simp only [matchToks, tokCands, ha, hb, Bool.and_self, if_true,
        List.findSome?] at h
      cases hm : matchToks ts r (setY2 (twoDig a b) p) with
      | none => rw [hm] at h; simp at h
      | some v => rw [hm] at h; simpa using h
    · simp [matchToks, tokCands, hd] at h

/-- The shape of any string accepted by the timestamp cascade. -/
theorem strptimeAny_shape {cs : List Char} {d : PyDateTime}
    (h : strptimeAny cs = some d) :
    ∃ a b r0, cs = a :: b :: r0 ∧ isDigitC a = true ∧ isDigitC b = true ∧
      ((∃ c e r2, r0 = c :: e :: '-' :: r2 ∧ isDigitC c = true ∧ isDigitC e = true) ∨
       (∃ r2, r0 = '-' :: r2)) := by
  obtain ⟨fmt, hmem, hone⟩ := List.exists_of_findSome?_eq_some h
  have hmt : ∃ p, matchToks fmt cs {} = some p := by
    unfold strptimeOne at hone
    cases hm : matchToks fmt cs {} with
    | none => rw [hm] at hone; simp at hone
    | some p => exact ⟨p, rfl⟩
  obtain ⟨p, hp⟩ := hmt
  simp only [dtFormats, List.mem_cons, List.not_mem_nil, or_false] at hmem
  rcases hmem with rfl | rfl | rfl | rfl | rfl | rfl
  all_goals first
  | -- %Y-started formats
    (obtain ⟨a, b, c, d4, r, rfl, ha, hb, hc, hd4, p2, hcont⟩ := matchToks_Y_shape hp
     obtain ⟨r2, rfl⟩ := matchToks_lit_shape hcont
     exact ⟨a, b, _, rfl, ha, hb, Or.inl ⟨c, d4, r2, rfl, hc, hd4⟩⟩)
  | -- %y-started formats
    (obtain ⟨a, b, r, rfl, ha, hb, p2, hcont⟩ := matchToks_y_shape hp
     obtain ⟨r2, rfl⟩ := matchToks_lit_shape hcont
     exact ⟨a, b, _, rfl, ha, hb, Or.inr ⟨r2, rfl⟩⟩)

/-- A dash-after-digits string defeats the boolean test and both numeric
parsers: the digits are consumed and the dash can neither continue a number
nor be trailing whitespace. -/
theorem dash_shape_parsers_fail {a b : Char} {r0 : List Char}
    (ha : isDigitC a = true) (hb : isDigitC b = true)
    (hsh : (∃ c e r2, r0 = c :: e :: '-' :: r2 ∧ isDigitC c = true ∧ isDigitC e = true) ∨
           (∃ r2, r0 = '-' :: r2)) :
    isBoolish (a :: b :: r0) = false ∧ pyIntL (a :: b :: r0) = none ∧
    pyFloatL (a :: b :: r0) = none := by
  obtain ⟨hws, hm, hpl, hlw, hi, hn, ht, hf⟩ := digit_head_facts ha
  have d1 : (('-' : Char) = '.') = False := by simp
  have d2 : (('-' : Char) = 'e') = False := by simp
  have d3 : (('-' : Char) = 'E') = False := by simp
  have d4 : isDigitC ('-') = false := by decide
  have d5 : (('-' : Char) ≠ '_') := by decide
  have hws2 : pyIsSpace ('-') = false := by decide
  obtain ⟨ds, r2, hdt⟩ : ∃ ds r2, digTail (b :: r0) = (ds, '-' :: r2) := by
    rcases hsh with ⟨c, e, r2, rfl, hc, he⟩ | ⟨r2, rfl⟩
    · refine ⟨[b, c, e], r2, ?_⟩
      have := digTail_all_digits [b, c, e] ('-' :: r2)
        (by intro x hx
            simp only [List.mem_cons, List.not_mem_nil, or_false] at hx
            rcases hx with rfl | rfl | rfl <;> assumption)
        (Or.inr ⟨'-', r2, rfl, d4, d5⟩)
      simpa using this
    · refine ⟨[b], r2, ?_⟩
      have := digTail_all_digits [b] ('-' :: r2)
        (by intro x hx
            simp only [List.mem_cons, List.not_mem_nil, or_false] at hx
            rcases hx with rfl
            assumption)
        (Or.inr ⟨'-', r2, rfl, d4, d5⟩)
      simpa using this
  refine ⟨?_, ?_, ?_⟩
  · simp [isBoolish, lowerChars, hlw, ht, hf]
  · simp [pyIntL, List.dropWhile_cons, hws, readSign, hm, hpl, readDigits, ha,
      hdt, endOk, hws2]
  · simp only [pyFloatL, List.dropWhile_cons, hws, Bool.false_eq_true, if_false,
      readSign, hm, hpl, if_neg, matchCI, hlw, hi, hn]
    simp [matchCI, hlw, hi, hn, readMantissa, readDigits, ha, hdt, readExp,
      d1, d2, d3, endOk, hws2]

/-- C4: `_parse_value` tries the interpretations in exactly the source
order — case-insensitive boolean, full-string `int`, full-string `float`,
the six absolute-timestamp patterns (2- or 4-digit years, optional
time-of-day with optional seconds), the two duration patterns
(`%H:%M:%S` then `%H:%M`), then the unmodified string — stopping at the
first success.  In particular a token accepted by `int(...)` always becomes
an integer (never a timestamp), a token accepted by some timestamp pattern
always becomes a datetime (never a bare string, and never a number — the
first conjuncts' exclusions are proved, not assumed), and the string
fallback is reached only when every earlier interpretation has failed. -/
theorem c4_coercion_order (s : String) :
    (isBoolish s.data = true →
      parseValue s = .bool (lowerChars s.data = ("true".data))) ∧
    (∀ n, pyIntL s.data = some n → parseValue s = .int n) ∧
    (isBoolish s.data = false → pyIntL s.data = none →
      ∀ f, pyFloatL s.data = some f → parseValue s = .float f) ∧
    (∀ d, strptimeAny s.data = some d → parseValue s = .datetime d) ∧
    (isBoolish s.data = false → pyIntL s.data = none → pyFloatL s.data = none →
      strptimeAny s.data = none →
      ∀ t, durAny s.data = some t → parseValue s = .duration t) ∧
    (∀ s2, parseValue s = .str s2 →
      s2 = s ∧ isBoolish s.data = false ∧ pyIntL s.data = none ∧
      pyFloatL s.data = none ∧ strptimeAny s.data = none ∧
      durAny s.data = none) := by
  refine ⟨?_, ?_, ?_, ?_, ?_, ?_⟩
  · intro hb
    simp [parseValue, hb]
  · intro n hn
    have hb := pyIntL_boolish hn
    simp [parseValue, hb, hn]
  · intro hb hn f hf
    simp [parseValue, hb, hn, hf]
  · intro d hd
    obtain ⟨a, b, r0, hcs, ha, hb2, hsh⟩ := strptimeAny_shape hd
    obtain ⟨hbool, hint, hflt⟩ := dash_shape_parsers_fail ha hb2 hsh
    rw [hcs] at hd
    simp [parseValue, hcs, hbool, hint, hflt, hd]
  · intro hb hn hf hs t ht
    simp [parseValue, hb, hn, hf, hs, ht]
  · intro s2 h
    by_cases hb : isBoolish s.data
    · simp [parseValue, hb] at h
    · rcases hn : pyIntL s.data with _ | n
      · rcases hf : pyFloatL s.data with _ | f
        · rcases hd : strptimeAny s.data with _ | d
          · rcases ht : durAny s.data with _ | t
            · have : parseValue s = .str s := by simp [parseValue, hb, hn, hf, hd, ht]
              rw [this] at h
              cases h
              exact ⟨rfl, by simpa using hb, rfl, rfl, rfl, rfl⟩
            · have : parseValue s = .duration t := by simp [parseValue, hb, hn, hf, hd, ht]
              rw [this] at h; cases h
          · have : parseValue s = .datetime d := by simp [parseValue, hb, hn, hf, hd]
            rw [this] at h; cases h
        · have : parseValue s = .float f := by simp [parseValue, hb, hn, hf]
          rw [this] at h; cases h
      · have : parseValue s = .int n := by simp [parseValue, hb, hn]
        rw [this] at h; cases h

/-- C4 witness: the numeric token `17` coerces to the integer 17, and the
timestamp token `2024-07-01` coerces to the datetime rather than staying a
string. -/
theorem c4_coercion_order_witness :
    parseValue ("17") = .int 17 ∧
    parseValue ("2024-07-01") = .datetime ⟨2024, 7, 1, 0, 0, 0⟩ :=
  ⟨(c4_coercion_order ("17")).2.1 17 (by decide),
   (c4_coercion_order ("2024-07-01")).2.2.2.1 ⟨2024, 7, 1, 0, 0, 0⟩ (by decide)⟩
